import Mathlib

/-!
Verification of the amilia booking webhook (Cloud Run service driving a
remote browser-automation service). The repository consists of several
near-duplicate variants of one Express server; the definitions below are
shallow embeddings of the functions the claims are about:

- the HH:MM validation and parsing helpers (isValidHHMM, hhmmToMinutes),
- the calendar-URL check (isValidCalendarUrl),
- the retryable-status predicates of the three fetchWithRetry variants,
- the slot selector inside pickAndClickCalendarRegister,
- the state classifier (isRealSuccess / getState flags),
- the poll loop of the remote browser script,
- the retry loops fetchWithRetry (index.js) and fetchWithRetryOverall
  (the part_008 variant), with time made explicit,
- the /book HTTP handlers of index.js (first variant) and part_008.

Purely environmental effects (the actual network, the page) enter as
oracle parameters; the control flow, arithmetic and string tests are
translated directly from the source.
-/

namespace Amilia

/-! ### Character and substring scanners (models of the JS regex tests) -/

/-- Test for an ASCII digit, modelling the regex class backslash-d. -/
def isDigitCh (c : Char) : Bool := decide (48 ≤ c.toNat ∧ c.toNat ≤ 57)

/-- Numeric value of an ASCII digit character. -/
def digitVal (c : Char) : Nat := c.toNat - 48

/-- Word character for the regex word-boundary test: [A-Za-z0-9_]. -/
def isWordCh (c : Char) : Bool :=
  decide ((65 ≤ c.toNat ∧ c.toNat ≤ 90) ∨ (97 ≤ c.toNat ∧ c.toNat ≤ 122) ∨
    (48 ≤ c.toNat ∧ c.toNat ≤ 57) ∨ c.toNat = 95)

/-- ASCII lower-casing, modelling the case-insensitive regex flag. -/
def lowerCh (c : Char) : Char :=
  if 65 ≤ c.toNat ∧ c.toNat ≤ 90 then Char.ofNat (c.toNat + 32) else c

/-- Does the character list start with the given pattern? -/
def startsWithList : List Char → List Char → Bool
  | [], _ => true
  | _ :: _, [] => false
  | p :: ps, c :: cs => p == c && startsWithList ps cs

/-- Substring search: does the pattern occur anywhere in the list?
Models the JS String.includes test. -/
def scanSub (pat : List Char) : List Char → Bool
  | [] => pat.isEmpty
  | c :: cs => startsWithList pat (c :: cs) || scanSub pat cs

/-- Occurrence of the token followed by a word boundary (next character,
if any, is not a word character). Models a regex of the shape
token-then-word-boundary. -/
def scanTokenWB (pat : List Char) : List Char → Bool
  | [] => false
  | c :: cs =>
    (startsWithList pat (c :: cs) &&
      (match (c :: cs).drop pat.length with
       | [] => true
       | d :: _ => !isWordCh d)) || scanTokenWB pat cs

/-! ### HH:MM validation and parsing

Models the regex used by isValidHHMM (index.js line 28) and by
hhmmToMinutes inside the browser script (index.js lines 236-240):
one or two hour digits (0-23) then a colon then minutes 00-59. -/

/-- Parse a character list against the HH:MM regex, returning hour and
minute values on a match. -/
def hhmmParse : List Char → Option (Nat × Nat)
  | [h1, c, m1, m2] =>
    if c = ':' ∧ isDigitCh h1 ∧ (48 ≤ m1.toNat ∧ m1.toNat ≤ 53) ∧ isDigitCh m2 then
      some (digitVal h1, 10 * digitVal m1 + digitVal m2)
    else none
  | [h1, h2, c, m1, m2] =>
    if c = ':' ∧
        (((h1 = '0' ∨ h1 = '1') ∧ isDigitCh h2) ∨
          (h1 = '2' ∧ 48 ≤ h2.toNat ∧ h2.toNat ≤ 51)) ∧
        (48 ≤ m1.toNat ∧ m1.toNat ≤ 53) ∧ isDigitCh m2 then
      some (10 * digitVal h1 + digitVal h2, 10 * digitVal m1 + digitVal m2)
    else none
  | _ => none

/-- Validation helper from index.js line 28: the string matches HH:MM. -/
def isValidHHMM (s : String) : Bool := (hhmmParse s.data).isSome

/-- Conversion from HH:MM to minute-of-day, from the browser script
(index.js lines 236-240); none when the string does not match. -/
def hhmmToMinutes (s : String) : Option Nat :=
  (hhmmParse s.data).map (fun p => p.1 * 60 + p.2)

/-- Every string the HH:MM regex accepts denotes a minute-of-day in the
range 0..1439. -/
theorem hhmmParse_bounds {cs : List Char} {h m : Nat}
    (hp : hhmmParse cs = some (h, m)) : h ≤ 23 ∧ m ≤ 59 := by
  match cs with
  | [h1, c, m1, m2] =>
    simp only [hhmmParse] at hp
    split at hp
    · rename_i hcond
      obtain ⟨-, hd1, hm1, hm2⟩ := hcond
      simp only [isDigitCh, decide_eq_true_eq] at hd1 hm2
      obtain ⟨rfl, rfl⟩ : h = digitVal h1 ∧ m = 10 * digitVal m1 + digitVal m2 := by
        have := hp
        simp only [Option.some.injEq, Prod.mk.injEq] at this
        exact ⟨this.1.symm, this.2.symm⟩
      unfold digitVal
      omega
    · exact absurd hp (by simp)
  | [h1, h2, c, m1, m2] =>
    simp only [hhmmParse] at hp
    split at hp
    · rename_i hcond
      obtain ⟨-, hh, hm1, hm2⟩ := hcond
      simp only [isDigitCh, decide_eq_true_eq] at hm2
      obtain ⟨rfl, rfl⟩ :
          h = 10 * digitVal h1 + digitVal h2 ∧ m = 10 * digitVal m1 + digitVal m2 := by
        have := hp
        simp only [Option.some.injEq, Prod.mk.injEq] at this
        exact ⟨this.1.symm, this.2.symm⟩
      rcases hh with ⟨hh1, hh2⟩ | ⟨hh1, hh2⟩
      · simp only [isDigitCh, decide_eq_true_eq] at hh2
        have e0 : ('0' : Char).toNat = 48 := by decide
        have e1 : ('1' : Char).toNat = 49 := by decide
        unfold digitVal
        rcases hh1 with rfl | rfl <;> omega
      · subst hh1
        have e2 : ('2' : Char).toNat = 50 := by decide
        unfold digitVal
        omega
    · exact absurd hp (by simp)
  | [] => exact absurd hp (by simp [hhmmParse])
  | [_] => exact absurd hp (by simp [hhmmParse])
  | [_, _] => exact absurd hp (by simp [hhmmParse])
  | [_, _, _] => exact absurd hp (by simp [hhmmParse])
  | _ :: _ :: _ :: _ :: _ :: _ :: _ => exact absurd hp (by simp [hhmmParse])

/-- Accepted HH:MM strings convert to a minute-of-day of at most 1439. -/
theorem hhmmToMinutes_le_1439 {s : String} {n : Nat}
    (h : hhmmToMinutes s = some n) : n ≤ 1439 := by
  unfold hhmmToMinutes at h
  cases hp : hhmmParse s.data with
  | none => simp [hp] at h
  | some p =>
    simp only [hp, Option.map_some', Option.some.injEq] at h
    obtain ⟨hh, hm⟩ :=
      hhmmParse_bounds (show hhmmParse s.data = some (p.1, p.2) by simpa using hp)
    omega

/-- A valid HH:MM string has a parse. -/
theorem isValidHHMM_parses {s : String} (h : isValidHHMM s = true) :
    ∃ n, hhmmToMinutes s = some n := by
  unfold isValidHHMM at h
  cases hp : hhmmParse s.data with
  | none => simp [hp] at h
  | some p => exact ⟨p.1 * 60 + p.2, by simp [hhmmToMinutes, hp]⟩

/-! ### Calendar URL check and day list (index.js lines 26-39) -/

/-- Day names accepted by the /book validation. -/
def VALID_DAYS : List String :=
  ["Sunday", "Monday", "Tuesday", "Wednesday", "Thursday", "Friday", "Saturday"]

/-- The URL must reference an activities page or a programs calendar
(index.js lines 36-39). -/
def isValidCalendarUrl (u : String) : Bool :=
  scanSub "/shop/activities/".data u.data || scanSub "/shop/programs/calendar/".data u.data

/-! ### Retryable-status predicates of the three retry-loop variants -/

/-- Retryable check of the first index.js fetchWithRetry (line 63):
retry on 429 and on 5xx. -/
def retryableStatusV1 (s : Nat) : Bool :=
  s == 429 || (decide (500 ≤ s) && decide (s ≤ 599))

/-- Retryable check of the second index.js fetchWithRetry (line 640):
an explicit list of statuses. -/
def retryableStatusV2 (s : Nat) : Bool :=
  [408, 429, 500, 502, 503, 504].contains s

/-- Retryable check of the part_003 fetchWithRetry (lines 91-95):
retry on 429, 408 and any 5xx. -/
def retryableStatusV3 (s : Nat) : Bool :=
  s == 429 || s == 408 || (decide (500 ≤ s) && decide (s ≤ 599))

/-- Modelled from the spec: the set of statuses section 6 declares
retryable, namely 408, 429 and 500-599. -/
def specRetryableStatus (s : Nat) : Bool :=
  s == 408 || s == 429 || (decide (500 ≤ s) && decide (s ≤ 599))

/-- Fallback of the response-body parse (index.js lines 471-476 and
628-633): a body that fails to parse is wrapped as a raw payload, never
thrown. The parser itself is an oracle parameter. -/
def parsedOf {J : Type} (tryParse : String → Option J) (text : String) : J ⊕ String :=
  match tryParse text with
  | some j => Sum.inl j
  | none => Sum.inr text

/-- C6: the claim says statuses 408, 429 and all of 500-599 are
retryable. The second index.js variant does not retry 501 (nor 505-599),
and the first does not retry 408, so the claim is false of the code as a
whole at these concrete statuses. -/
theorem C6_counterexample :
    specRetryableStatus 501 = true ∧ retryableStatusV2 501 = false ∧
    specRetryableStatus 408 = true ∧ retryableStatusV1 408 = false := by
  decide

/-- C6 (amended): the part_003 fetchWithRetry retries exactly the
statuses 408, 429 and 500-599 of the claim; the two index.js variants
retry only subsets of that set (the first omits 408, the second retries
only 408, 429, 500, 502, 503, 504); and a 2xx body that fails to parse
is wrapped as a raw payload rather than failed. -/
theorem C6_theorem :
    (∀ s : Nat, retryableStatusV3 s = specRetryableStatus s) ∧
    (∀ s : Nat, (retryableStatusV1 s && !specRetryableStatus s) = false) ∧
    (∀ s : Nat, (retryableStatusV2 s && !specRetryableStatus s) = false) ∧
    (∀ (J : Type) (tryParse : String → Option J) (text : String),
      tryParse text = none → parsedOf tryParse text = Sum.inr text) := by
  refine ⟨?_, ?_, ?_, ?_⟩
  · intro s
    simp only [retryableStatusV3, specRetryableStatus]
    cases h429 : s == 429 <;> cases h408 : s == 408 <;> simp
  · intro s
    simp only [retryableStatusV1, specRetryableStatus]
    cases h429 : s == 429 <;> cases h408 : s == 408 <;>
      cases h5 : (decide (500 ≤ s) && decide (s ≤ 599)) <;> simp
  · intro s
    cases hv : retryableStatusV2 s with
    | false => simp
    | true =>
      have hs : s = 408 ∨ s = 429 ∨ s = 500 ∨ s = 502 ∨ s = 503 ∨ s = 504 := by
        have hmem : s ∈ [408, 429, 500, 502, 503, 504] := by
          simpa [retryableStatusV2, List.contains] using hv
        simpa using hmem
      rcases hs with rfl | rfl | rfl | rfl | rfl | rfl <;> decide
  · intro J tryParse text h
    simp [parsedOf, h]

/-- C6 witness for the amended theorem's hypothesis-bearing part. -/
theorem C6_witness :
    retryableStatusV3 503 = specRetryableStatus 503 ∧
    parsedOf (fun _ : String => (none : Option Nat)) "not json" = Sum.inr "not json" :=
  ⟨C6_theorem.1 503, C6_theorem.2.2.2 Nat (fun _ => none) "not json" rfl⟩

/-! ### Slot selector (pickAndClickCalendarRegister, index.js lines 344-381)

A candidate is an event container with a visible register button; its
startMin is the result of parseStartMinutes on its text (null when no
time pattern was found). The pick is
filtered = candidates.filter(in-window).sort(by startMin)[0], falling
back to candidates[0], else null. -/

/-- Candidate produced per event container by the browser script. -/
structure SlotCandidate where
  text : String
  startMin : Option Int
deriving DecidableEq

/-- The window filter of the selector: a parsed start time lying within
[windowStartMin, windowEndMin] inclusive. -/
def inWindow (wS wE : Int) (c : SlotCandidate) : Bool :=
  match c.startMin with
  | some m => decide (wS ≤ m) && decide (m ≤ wE)
  | none => false

/-- Comparator of the selector's sort: ascending by startMin. -/
def slotLE (a b : SlotCandidate) : Prop :=
  a.startMin.getD 0 ≤ b.startMin.getD 0

instance : DecidableRel slotLE := fun a b => by unfold slotLE; infer_instance

instance : IsTotal SlotCandidate slotLE :=
  ⟨fun a b => le_total (a.startMin.getD 0) (b.startMin.getD 0)⟩

instance : IsTrans SlotCandidate slotLE :=
  ⟨fun _ _ _ hab hbc => le_trans hab hbc⟩

/-- The pick of pickAndClickCalendarRegister: the head of the
window-filtered candidates sorted ascending by start time, else the
first candidate in original order, else none. -/
def pickSlot (cands : List SlotCandidate) (wS wE : Int) : Option SlotCandidate :=
  let filtered := List.insertionSort slotLE (cands.filter (inWindow wS wE))
  filtered.head?.orElse (fun _ => cands.head?)

/-- C5: the slot selector picks the in-window candidate with the
smallest parsed start time; with no parseable start time at all it
falls back to the first candidate in original order; on an empty
candidate list it picks nothing. -/
theorem C5_theorem :
    (∀ wS wE : Int, pickSlot [] wS wE = none) ∧
    (∀ (cands : List SlotCandidate) (wS wE : Int),
      (∀ c ∈ cands, c.startMin = none) → pickSlot cands wS wE = cands.head?) ∧
    (∀ (cands : List SlotCandidate) (wS wE : Int) (c : SlotCandidate),
      c ∈ cands → inWindow wS wE c = true →
      ∃ r, pickSlot cands wS wE = some r ∧ inWindow wS wE r = true ∧
        ∀ d ∈ cands, inWindow wS wE d = true →
          r.startMin.getD 0 ≤ d.startMin.getD 0) := by
  refine ⟨fun wS wE => rfl, ?_, ?_⟩
  · intro cands wS wE hnone
    have hfil : cands.filter (inWindow wS wE) = [] := by
      rw [List.filter_eq_nil_iff]
      intro a ha
      simp [inWindow, hnone a ha]
    simp [pickSlot, hfil, Option.orElse]
  · intro cands wS wE c hc hcw
    have hcf : c ∈ cands.filter (inWindow wS wE) := List.mem_filter.mpr ⟨hc, hcw⟩
    have hperm : (List.insertionSort slotLE (cands.filter (inWindow wS wE))).Perm
        (cands.filter (inWindow wS wE)) := List.perm_insertionSort _ _
    have hsorted : List.Sorted slotLE
        (List.insertionSort slotLE (cands.filter (inWindow wS wE))) :=
      List.sorted_insertionSort _ _
    have hcs : c ∈ List.insertionSort slotLE (cands.filter (inWindow wS wE)) :=
      hperm.mem_iff.mpr hcf
    cases hE : List.insertionSort slotLE (cands.filter (inWindow wS wE)) with
    | nil => rw [hE] at hcs; exact absurd hcs (List.not_mem_nil c)
    | cons r rest =>
      refine ⟨r, ?_, ?_, ?_⟩
      · simp [pickSlot, hE, Option.orElse]
      · have hrf : r ∈ cands.filter (inWindow wS wE) :=
          hperm.mem_iff.mp (by rw [hE]; exact List.mem_cons_self r rest)
        exact (List.mem_filter.mp hrf).2
      · intro d hd hdw
        have hdf : d ∈ cands.filter (inWindow wS wE) := List.mem_filter.mpr ⟨hd, hdw⟩
        have hds : d ∈ r :: rest := by rw [← hE]; exact hperm.mem_iff.mpr hdf
        rcases List.mem_cons.mp hds with rfl | hdr
        · exact le_refl _
        · rw [hE] at hsorted
          exact (List.pairwise_cons.mp hsorted).1 d hdr

/-- C5 witness: end-to-end scenario A. Window 18:00-21:00 is 1080-1260
minutes; candidates parse to 1170, 1020, 1215; the pick is the 1170
(19:30) candidate, obtained through the claim theorem. -/
theorem C5_witness :
    ∃ r, pickSlot
        [⟨"19:30", some 1170⟩, ⟨"17:00", some 1020⟩, ⟨"20:15", some 1215⟩] 1080 1260 =
        some r ∧ inWindow 1080 1260 r = true ∧
      ∀ d ∈ [(⟨"19:30", some 1170⟩ : SlotCandidate), ⟨"17:00", some 1020⟩,
          ⟨"20:15", some 1215⟩], inWindow 1080 1260 d = true →
        r.startMin.getD 0 ≤ d.startMin.getD 0 :=
  C5_theorem.2.2
    [⟨"19:30", some 1170⟩, ⟨"17:00", some 1020⟩, ⟨"20:15", some 1215⟩] 1080 1260
    ⟨"19:30", some 1170⟩ (by decide) (by decide)

/-- Confirmation that scenario A concretely picks the 19:30 candidate. -/
theorem pickSlot_scenarioA :
    pickSlot [⟨"19:30", some 1170⟩, ⟨"17:00", some 1020⟩, ⟨"20:15", some 1215⟩]
      1080 1260 = some ⟨"19:30", some 1170⟩ := by
  decide

/-! ### State classifier (browser script getState, index.js lines 245-298)

Success is detected from the URL only: a quickRegisterId query parameter
or a cart or checkout path segment (isRealSuccess, lines 245-247).
Blocked and not-opened-yet are detected from the page body text. -/

/-- Occurrence of a question mark or ampersand, then the literal
quickRegisterId equals, then at least one digit. -/
def hasQuickReg : List Char → Bool
  | [] => false
  | c :: cs =>
    ((c == '?' || c == '&') && startsWithList "quickRegisterId=".data cs &&
      (match cs.drop 16 with
       | d :: _ => isDigitCh d
       | [] => false)) || hasQuickReg cs

/-- Strict URL success test of index.js lines 245-247. -/
def isRealSuccess (url : String) : Bool :=
  hasQuickReg url.data ||
    scanTokenWB "/cart".data (url.data.map lowerCh) ||
    scanTokenWB "/checkout".data (url.data.map lowerCh)

/-- Flags produced by getState from the page URL and body text. -/
structure PageObs where
  success : Bool
  cannotRegister : Bool
  notOpenedYet : Bool
deriving DecidableEq

/-- The getState evaluation over the observed URL and body text. -/
def getStateObs (url bodyText : String) : PageObs :=
  { success := isRealSuccess url
    cannotRegister := scanSub "cannot register".data (bodyText.data.map lowerCh)
    notOpenedYet :=
      scanSub "registration has not yet been opened".data (bodyText.data.map lowerCh) }

/-- Terminal classification of a remote observation. -/
inductive RemoteState where
  | Succeeded
  | NotYetAvailable
  | Blocked
  | Unknown
deriving DecidableEq

/-- Priority order in which the poll loop consumes the flags: success
first, then the blocked and not-opened cues, anything else unknown. -/
def classifyObs (o : PageObs) : RemoteState :=
  if o.success then .Succeeded
  else if o.cannotRegister then .Blocked
  else if o.notOpenedYet then .NotYetAvailable
  else .Unknown

/-- Classifier over the raw page observation. -/
def classifyState (url bodyText : String) : RemoteState :=
  classifyObs (getStateObs url bodyText)

/-- Characterization of the NotYetAvailable classification. -/
theorem classifyObs_notYet {o : PageObs} :
    classifyObs o = RemoteState.NotYetAvailable ↔
      o.success = false ∧ o.cannotRegister = false ∧ o.notOpenedYet = true := by
  cases o with
  | mk s c n => cases s <;> cases c <;> cases n <;> simp [classifyObs]

/-- C8: the classifier is a total function; the empty observation
classifies as Unknown; and an observation classifies as Succeeded
exactly when the URL carries one of the explicit action-confirmed cues,
so no body-text evidence alone ever yields Succeeded. -/
theorem C8_theorem :
    classifyState "" "" = RemoteState.Unknown ∧
    (∀ url bodyText : String,
      classifyState url bodyText = RemoteState.Succeeded ↔ isRealSuccess url = true) := by
  constructor
  · decide
  · intro url bodyText
    unfold classifyState classifyObs getStateObs
    cases hs : isRealSuccess url
    · simp only [hs]
      split <;> simp_all
      split <;> simp_all
      split <;> simp_all
    · simp [hs]

/-! ### Poll loop (browser script, index.js lines 281-282 and 394-422)

maxAttempts = max(1, floor(POLL_SECONDS*1000 / POLL_INTERVAL_MS)); the
while loop increments attempts, observes the page, breaks on success,
continues on blocked or not-opened cues (after closing any modal) and in
dry-run mode, and otherwise clicks and re-observes. The page states seen
at each iteration are an oracle. -/

/-- Observations available to one poll iteration: the state seen at the
top of the iteration and the state seen after a click. -/
structure PollObs where
  first : PageObs
  afterClick : PageObs

/-- Iteration budget of the poll loop (index.js line 281). -/
def maxIterationsOf (pollSeconds pollIntervalMs : Nat) : Nat :=
  max 1 (pollSeconds * 1000 / pollIntervalMs)

/-- One execution of the poll while-loop, returning the number of
iterations performed. Fuel bounds the recursion; the loop guard
attempts less-than maxA is checked exactly as in the source. -/
def pollLoopGo (dryRun : Bool) (obs : Nat → PollObs) (maxA : Nat) :
    Nat → Nat → Nat
  | attempts, 0 => attempts
  | attempts, fuel + 1 =>
    if attempts < maxA then
      if ((obs (attempts + 1)).first).success then attempts + 1
      else if ((obs (attempts + 1)).first).cannotRegister ||
          ((obs (attempts + 1)).first).notOpenedYet then
        pollLoopGo dryRun obs maxA (attempts + 1) fuel
      else if dryRun then pollLoopGo dryRun obs maxA (attempts + 1) fuel
      else if ((obs (attempts + 1)).afterClick).success then attempts + 1
      else pollLoopGo dryRun obs maxA (attempts + 1) fuel
    else attempts

/-- The poll loop entry: attempts starts at 0 and the loop can run at
most maxA times. -/
def pollLoop (dryRun : Bool) (obs : Nat → PollObs) (maxA : Nat) : Nat :=
  pollLoopGo dryRun obs maxA 0 maxA

/-- Outcome labelling after the loop (index.js lines 1032-1034). -/
def pollOutcome (finalSuccess : Bool) (attempts maxA : Nat) : String :=
  if finalSuccess then "SUCCESS_CLICKED"
  else if maxA ≤ attempts then "TIMEOUT"
  else "STOPPED"

/-- The loop never runs more iterations than its budget. -/
theorem pollLoopGo_le (dryRun : Bool) (obs : Nat → PollObs) (maxA : Nat) :
    ∀ fuel attempts, attempts ≤ maxA → pollLoopGo dryRun obs maxA attempts fuel ≤ maxA := by
  intro fuel
  induction fuel with
  | zero => intro attempts h; simpa [pollLoopGo] using h
  | succ n ih =>
    intro attempts h
    unfold pollLoopGo
    split_ifs with h1 h2 h3 h4 h5 <;> first | omega | exact ih _ (by omega)

/-- When every iteration observes a not-yet-available state, the loop
consumes its entire fuel, one iteration per unit. -/
theorem pollLoopGo_notYet (dryRun : Bool) (obs : Nat → PollObs) (maxA : Nat)
    (hobs : ∀ i, classifyObs (obs i).first = RemoteState.NotYetAvailable) :
    ∀ fuel attempts, attempts + fuel ≤ maxA →
      pollLoopGo dryRun obs maxA attempts fuel = attempts + fuel := by
  intro fuel
  induction fuel with
  | zero => intro attempts _; simp [pollLoopGo]
  | succ n ih =>
    intro attempts h
    obtain ⟨hs, hc, hn⟩ := classifyObs_notYet.mp (hobs (attempts + 1))
    have hstep : pollLoopGo dryRun obs maxA attempts (n + 1) =
        pollLoopGo dryRun obs maxA (attempts + 1) n := by
      simp only [pollLoopGo, hs, hc, hn]
      simp [show attempts < maxA by omega]
    rw [hstep, ih (attempts + 1) (by omega)]
    omega

/-- C4: with a positive poll interval, the poll loop performs at most
maxIterationsOf iterations; if every iteration observes NotYetAvailable
it performs exactly that many and the final outcome is TIMEOUT; and the
scenario-B budget of 30 seconds at a 10000 ms interval gives 3. -/
theorem C4_theorem (pollS pollI : Nat) (dryRun : Bool) (obs : Nat → PollObs)
    (finalObs : PageObs) (hI : 0 < pollI) :
    pollLoop dryRun obs (maxIterationsOf pollS pollI) ≤ maxIterationsOf pollS pollI ∧
    ((∀ i, classifyObs (obs i).first = RemoteState.NotYetAvailable) →
      classifyObs finalObs = RemoteState.NotYetAvailable →
      pollLoop dryRun obs (maxIterationsOf pollS pollI) = maxIterationsOf pollS pollI ∧
      pollOutcome finalObs.success (pollLoop dryRun obs (maxIterationsOf pollS pollI))
        (maxIterationsOf pollS pollI) = "TIMEOUT") ∧
    maxIterationsOf 30 10000 = 3 := by
  refine ⟨pollLoopGo_le dryRun obs _ _ 0 (Nat.zero_le _), ?_, by decide⟩
  intro hobs hfin
  have hrun : pollLoop dryRun obs (maxIterationsOf pollS pollI) =
      maxIterationsOf pollS pollI := by
    unfold pollLoop
    simpa using pollLoopGo_notYet dryRun obs _ hobs (maxIterationsOf pollS pollI) 0 (by omega)
  obtain ⟨hs, -, -⟩ := classifyObs_notYet.mp hfin
  refine ⟨hrun, ?_⟩
  rw [hrun]
  simp [pollOutcome, hs]

/-- C4 witness: scenario B at pollBudgetSeconds 30 and interval 10000 ms
with every observation not-yet-available runs exactly 3 iterations and
times out. -/
theorem C4_witness :
    pollLoop true (fun _ => ⟨⟨false, false, true⟩, ⟨false, false, true⟩⟩)
        (maxIterationsOf 30 10000) = maxIterationsOf 30 10000 ∧
    pollOutcome false (pollLoop true
        (fun _ => ⟨⟨false, false, true⟩, ⟨false, false, true⟩⟩)
        (maxIterationsOf 30 10000)) (maxIterationsOf 30 10000) = "TIMEOUT" := by
  have h := C4_theorem 30 10000 true
    (fun _ => ⟨⟨false, false, true⟩, ⟨false, false, true⟩⟩) ⟨false, false, true⟩
    (by decide)
  have hobs1 : classifyObs
      (PollObs.first ⟨⟨false, false, true⟩, ⟨false, false, true⟩⟩) =
      RemoteState.NotYetAvailable := by decide
  exact h.2.1 (fun _ => hobs1) (by decide)

/-! ### Retry loop of index.js (first variant, lines 51-103)

fetchWithRetry(url, options, cfg) tries up to maxAttempts fetches; on a
retryable status or a thrown error it sleeps
jitter(min(maxDelayMs, baseDelayMs * 2^(attempt-1))) and retries, with
no knowledge of any remaining overall budget. Time is made explicit:
each attempt's duration and result come from an oracle, and every sleep
is recorded together with the overall budget remaining at that moment
(the budget being the enclosing handler's AbortController deadline). -/

/-- Randomized jitter of index.js lines 45-48: delta = floor(0.2 * ms)
and the result is ms + draw - delta for a draw in [0, 2 * delta]. -/
def jitterAmount (ms draw : Nat) : Nat := ms + draw - ms / 5

/-- Exponential backoff of index.js line 65. -/
def delayV1 (baseDelayMs maxDelayMs attempt : Nat) : Nat :=
  min maxDelayMs (baseDelayMs * 2 ^ (attempt - 1))

/-- Configuration of the first fetchWithRetry (index.js lines 52-54). -/
structure RetryCfgV1 where
  maxAttempts : Nat
  baseDelayMs : Nat
  maxDelayMs : Nat

/-- Result of one fetch: an HTTP status, or a rejection (network error
or abort). -/
inductive FetchRes where
  | status (s : Nat)
  | thrown
deriving DecidableEq

/-- A sleep performed by the retry loop: the overall budget remaining at
that moment, and the slept duration. -/
structure SleepEv where
  remaining : Int
  waitMs : Nat
deriving DecidableEq

/-- Observable outcome of the first fetchWithRetry: the recorded sleeps,
the number of fetch invocations, and some (status, attempt) when the
loop returned a response (the source returns the response object both
for a success and for a retryable status on the last attempt); none
when it threw. -/
structure RunV1Out where
  sleeps : List SleepEv
  calls : Nat
  result : Option (Nat × Nat)
deriving DecidableEq

/-- The attempt loop of the first fetchWithRetry. The oracle gives each
attempt's duration and result; rand gives each attempt's jitter draw. -/
def fetchWithRetryV1Go (cfg : RetryCfgV1) (budget : Int) (oracle : Nat → Int × FetchRes)
    (rand : Nat → Nat) : Nat → Int → Nat → RunV1Out
  | _, _, 0 => ⟨[], 0, none⟩
  | attempt, elapsed, fuel + 1 =>
    let dur := (oracle attempt).1
    let elapsed2 := elapsed + dur
    match (oracle attempt).2 with
    | .status s =>
      if retryableStatusV1 s then
        if attempt = cfg.maxAttempts then ⟨[], 1, some (s, attempt)⟩
        else
          let w := jitterAmount (delayV1 cfg.baseDelayMs cfg.maxDelayMs attempt) (rand attempt)
          let rest := fetchWithRetryV1Go cfg budget oracle rand (attempt + 1) (elapsed2 + w) fuel
          ⟨⟨budget - elapsed2, w⟩ :: rest.sleeps, rest.calls + 1, rest.result⟩
      else ⟨[], 1, some (s, attempt)⟩
    | .thrown =>
      if attempt = cfg.maxAttempts then ⟨[], 1, none⟩
      else
        let w := jitterAmount (delayV1 cfg.baseDelayMs cfg.maxDelayMs attempt) (rand attempt)
        let rest := fetchWithRetryV1Go cfg budget oracle rand (attempt + 1) (elapsed2 + w) fuel
        ⟨⟨budget - elapsed2, w⟩ :: rest.sleeps, rest.calls + 1, rest.result⟩

/-- Entry of the first fetchWithRetry: attempt 1, elapsed 0. -/
def fetchWithRetryV1 (cfg : RetryCfgV1) (budget : Int) (oracle : Nat → Int × FetchRes)
    (rand : Nat → Nat) : RunV1Out :=
  fetchWithRetryV1Go cfg budget oracle rand 1 0 cfg.maxAttempts

/-- C1: the claim that the retry loop never sleeps a delay reaching the
remaining overall budget is false of index.js fetchWithRetry. With the
handler budget of 285000 ms, an attempt that spends 284000 ms and comes
back 429 leaves 1000 ms, yet the loop sleeps jitter(1200) = 1440 ms
(maximal draw), sleeping past the deadline instead of failing fast. -/
theorem C1_counterexample :
    ∃ e ∈ (fetchWithRetryV1 ⟨4, 1200, 12000⟩ 285000
      (fun k => if k = 1 then (284000, FetchRes.status 429) else (0, FetchRes.thrown))
      (fun k => if k = 1 then 480 else 0)).sleeps,
      e.remaining < (e.waitMs : Int) := by
  refine ⟨⟨1000, 1440⟩, ?_, by decide⟩
  decide

/-! ### Retry loop of part_008 (fetchWithRetryOverall, lines 239-270)

This variant owns the overall deadline: at each loop top it computes
remaining = overallTimeoutMs - elapsed and throws an overall-timeout
(HTTP 408) outcome when none is left; the attempt timeout is
min(perAttemptTimeoutMs, remaining); after a failed attempt the backoff
is min(backoffMs or 1500, max(0, overallTimeoutMs - elapsed - 50)) and
is slept only when positive and attempts remain. -/

/-- Configuration of fetchWithRetryOverall (part_008 line 239). -/
structure RetryCfgO where
  attempts : Nat
  perAttemptTimeoutMs : Int
  overallTimeoutMs : Int
  backoffMs : Int

/-- Result of one unit-of-work invocation: a resolved value carrying its
ok flag, or a rejection. -/
inductive JobRes where
  | value (ok : Bool)
  | thrown
deriving DecidableEq

/-- A backoff sleep of fetchWithRetryOverall with the budget remaining
when it was computed. -/
structure SleepEvO where
  remaining : Int
  backoff : Int
deriving DecidableEq

/-- Terminal outcome of fetchWithRetryOverall. -/
inductive OverallRes where
  | returned (ok : Bool)
  | overallTimeout
  | failed
deriving DecidableEq

/-- Observable outcome of fetchWithRetryOverall. -/
structure RunOOut where
  sleeps : List SleepEvO
  calls : Nat
  result : OverallRes
deriving DecidableEq

/-- The JS expression backoffMs or 1500: zero (falsy) falls back to the
default of 1500 ms. -/
def orDefaultBackoff (b : Int) : Int := if b = 0 then 1500 else b

/-- Continuation after a failed attempt (part_008 lines 258-266): the
backoff is backoffMs capped by max(0, overallTimeoutMs - elapsed - 50)
and is slept only when attempts remain and it is positive; rest resumes
the loop from the elapsed time after any sleep. -/
def overallAfterFail (cfg : RetryCfgO) (i : Nat) (e2 : Int)
    (rest : Int → RunOOut) : RunOOut :=
  let backoff := min (orDefaultBackoff cfg.backoffMs) (max 0 (cfg.overallTimeoutMs - e2 - 50))
  if i < cfg.attempts ∧ 0 < backoff then
    let r := rest (e2 + backoff)
    ⟨⟨cfg.overallTimeoutMs - e2, backoff⟩ :: r.sleeps, r.calls + 1, r.result⟩
  else
    let r := rest e2
    ⟨r.sleeps, r.calls + 1, r.result⟩

/-- The attempt loop of fetchWithRetryOverall. The oracle gives each
attempt's true duration and result; an attempt whose duration exceeds
its timeout is cut off after the timeout and counts as thrown. -/
def fetchWithRetryOverallGo (cfg : RetryCfgO) (oracle : Nat → Int × JobRes) :
    Nat → Int → Nat → RunOOut
  | _, _, 0 => ⟨[], 0, .failed⟩
  | i, elapsed, fuel + 1 =>
    if cfg.overallTimeoutMs - elapsed ≤ 0 then ⟨[], 0, .overallTimeout⟩
    else
      let t := min cfg.perAttemptTimeoutMs (cfg.overallTimeoutMs - elapsed)
      if t < (oracle i).1 then
        overallAfterFail cfg i (elapsed + t)
          (fun e2 => fetchWithRetryOverallGo cfg oracle (i + 1) e2 fuel)
      else
        match (oracle i).2 with
        | .value ok => ⟨[], 1, .returned ok⟩
        | .thrown =>
          overallAfterFail cfg i (elapsed + (oracle i).1)
            (fun e2 => fetchWithRetryOverallGo cfg oracle (i + 1) e2 fuel)

/-- Entry of fetchWithRetryOverall: attempt 1, elapsed 0, at most
cfg.attempts iterations. -/
def fetchWithRetryOverall (cfg : RetryCfgO) (oracle : Nat → Int × JobRes) : RunOOut :=
  fetchWithRetryOverallGo cfg oracle 1 0 cfg.attempts

/-- Any sleep recorded by the failure continuation is positive and
leaves at least 50 ms of budget, provided the resumed loop does too. -/
theorem overallAfterFail_sleeps {cfg : RetryCfgO} {i : Nat} {e2 : Int}
    {rest : Int → RunOOut}
    (hrest : ∀ x, ∀ e ∈ (rest x).sleeps, 0 < e.backoff ∧ e.backoff + 50 ≤ e.remaining) :
    ∀ e ∈ (overallAfterFail cfg i e2 rest).sleeps,
      0 < e.backoff ∧ e.backoff + 50 ≤ e.remaining := by
  intro e he
  by_cases hcond : i < cfg.attempts ∧
      0 < min (orDefaultBackoff cfg.backoffMs) (max 0 (cfg.overallTimeoutMs - e2 - 50))
  · simp only [overallAfterFail, if_pos hcond] at he
    rcases List.mem_cons.mp he with rfl | ht
    · refine ⟨hcond.2, ?_⟩
      have h1 : min (orDefaultBackoff cfg.backoffMs)
          (max 0 (cfg.overallTimeoutMs - e2 - 50)) ≤
          max 0 (cfg.overallTimeoutMs - e2 - 50) := min_le_right _ _
      have h2 := hcond.2
      have h3 : (0 : Int) < cfg.overallTimeoutMs - e2 - 50 := by
        rcases lt_max_iff.mp (lt_of_lt_of_le h2 h1) with h | h
        · exact absurd h (lt_irrefl 0)
        · exact h
      have h4 : max 0 (cfg.overallTimeoutMs - e2 - 50) = cfg.overallTimeoutMs - e2 - 50 :=
        max_eq_right (le_of_lt h3)
      show min (orDefaultBackoff cfg.backoffMs)
          (max 0 (cfg.overallTimeoutMs - e2 - 50)) + 50 ≤ cfg.overallTimeoutMs - e2
      linarith
    · exact hrest _ e ht
  · simp only [overallAfterFail, if_neg hcond] at he
    exact hrest _ e he

/-- Every sleep of fetchWithRetryOverall is positive and leaves at least
50 ms of budget. -/
theorem fetchWithRetryOverallGo_sleeps (cfg : RetryCfgO) (oracle : Nat → Int × JobRes) :
    ∀ fuel i elapsed, ∀ e ∈ (fetchWithRetryOverallGo cfg oracle i elapsed fuel).sleeps,
      0 < e.backoff ∧ e.backoff + 50 ≤ e.remaining := by
  intro fuel
  induction fuel with
  | zero => intro i elapsed e he; simp [fetchWithRetryOverallGo] at he
  | succ n ih =>
    intro i elapsed e he
    by_cases hA : cfg.overallTimeoutMs - elapsed ≤ 0
    · simp only [fetchWithRetryOverallGo, if_pos hA] at he
      simp at he
    · simp only [fetchWithRetryOverallGo, if_neg hA] at he
      by_cases hB : min cfg.perAttemptTimeoutMs (cfg.overallTimeoutMs - elapsed) < (oracle i).1
      · rw [if_pos hB] at he
        exact overallAfterFail_sleeps (fun x => ih (i + 1) x) e he
      · rw [if_neg hB] at he
        cases hres : (oracle i).2 with
        | value ok => simp only [hres] at he; simp at he
        | thrown =>
          simp only [hres] at he
          exact overallAfterFail_sleeps (fun x => ih (i + 1) x) e he

/-- C1 (amended): in part_008's fetchWithRetryOverall every slept
backoff is positive and at most remainingBudget - 50, so the loop never
sleeps up to or past the deadline; and when the overall budget is
already exhausted it fails fast with the overall-timeout outcome before
invoking the unit of work. The index.js fetchWithRetry loops have no
such cap (see the counterexample). -/
theorem C1_theorem (cfg : RetryCfgO) (oracle : Nat → Int × JobRes) :
    (∀ e ∈ (fetchWithRetryOverall cfg oracle).sleeps,
      0 < e.backoff ∧ e.backoff + 50 ≤ e.remaining) ∧
    (1 ≤ cfg.attempts → cfg.overallTimeoutMs ≤ 0 →
      (fetchWithRetryOverall cfg oracle).result = OverallRes.overallTimeout ∧
      (fetchWithRetryOverall cfg oracle).calls = 0) := by
  constructor
  · exact fun e he => fetchWithRetryOverallGo_sleeps cfg oracle cfg.attempts 1 0 e he
  · intro hatt hbudget
    unfold fetchWithRetryOverall
    obtain ⟨m, hm⟩ : ∃ m, cfg.attempts = m + 1 := ⟨cfg.attempts - 1, by omega⟩
    rw [hm]
    unfold fetchWithRetryOverallGo
    rw [if_pos (by omega)]
    exact ⟨rfl, rfl⟩

/-- C1 witness: a concrete run in which a sleep occurs and satisfies the
bound, and a zero-budget run that times out with no invocation. -/
theorem C1_witness :
    (0 < (1500 : Int) ∧ (1500 : Int) + 50 ≤ 9800) ∧
    ((fetchWithRetryOverall ⟨3, 1000, 0, 1500⟩ (fun _ => (200, JobRes.thrown))).result =
        OverallRes.overallTimeout ∧
      (fetchWithRetryOverall ⟨3, 1000, 0, 1500⟩ (fun _ => (200, JobRes.thrown))).calls = 0) := by
  constructor
  · exact (C1_theorem ⟨3, 1000, 10000, 1500⟩ (fun _ => (200, JobRes.thrown))).1
      ⟨9800, 1500⟩ (by decide)
  · exact (C1_theorem ⟨3, 1000, 0, 1500⟩ (fun _ => (200, JobRes.thrown))).2
      (by decide) (by decide)

/-! ### C3: attempt bound and first-success behaviour of fetchWithRetry -/

/-- Characterization of the first variant's retryable statuses. -/
theorem retryableStatusV1_eq_true_iff (s : Nat) :
    retryableStatusV1 s = true ↔ s = 429 ∨ (500 ≤ s ∧ s ≤ 599) := by
  simp [retryableStatusV1, Bool.or_eq_true, Bool.and_eq_true, decide_eq_true_eq]

/-- A 2xx status is not retryable. -/
theorem retryableStatusV1_2xx {s : Nat} (h1 : 200 ≤ s) (h2 : s ≤ 299) :
    retryableStatusV1 s = false := by
  cases hc : retryableStatusV1 s with
  | false => rfl
  | true =>
    rcases (retryableStatusV1_eq_true_iff s).mp hc with rfl | ⟨h3, h4⟩ <;> omega

/-- Does this attempt outcome make the first fetchWithRetry retry? -/
def retryableAt (p : Int × FetchRes) : Bool :=
  match p.2 with
  | .status s => retryableStatusV1 s
  | .thrown => true

/-- The loop performs at most fuel fetch invocations. -/
theorem fetchWithRetryV1Go_calls_le (cfg : RetryCfgV1) (budget : Int)
    (oracle : Nat → Int × FetchRes) (rand : Nat → Nat) :
    ∀ fuel attempt elapsed,
      (fetchWithRetryV1Go cfg budget oracle rand attempt elapsed fuel).calls ≤ fuel := by
  intro fuel
  induction fuel with
  | zero => intro attempt elapsed; simp [fetchWithRetryV1Go]
  | succ n ih =>
    intro attempt elapsed
    simp only [fetchWithRetryV1Go]
    cases hres : (oracle attempt).2 with
    | status s =>
      by_cases hr : retryableStatusV1 s
      · by_cases hm : attempt = cfg.maxAttempts
        · simp [hr, hm]
        · simp only [hr, hm, if_true, if_false]
          exact Nat.succ_le_succ (ih _ _)
      · simp [hr]
    | thrown =>
      by_cases hm : attempt = cfg.maxAttempts
      · simp [hm]
      · simp only [if_neg hm]
        exact Nat.succ_le_succ (ih _ _)

/-- When attempts before k are retryable and attempt k's response is a
non-retryable status, the loop returns that response at attempt k. -/
theorem fetchWithRetryV1Go_first_return (cfg : RetryCfgV1) (budget : Int)
    (oracle : Nat → Int × FetchRes) (rand : Nat → Nat) (k s : Nat)
    (hks : (oracle k).2 = FetchRes.status s) (hnr : retryableStatusV1 s = false) :
    ∀ fuel attempt elapsed, attempt + fuel = cfg.maxAttempts + 1 → attempt ≤ k →
      k ≤ cfg.maxAttempts →
      (∀ j, attempt ≤ j → j < k → retryableAt (oracle j) = true) →
      (fetchWithRetryV1Go cfg budget oracle rand attempt elapsed fuel).result = some (s, k) ∧
      (fetchWithRetryV1Go cfg budget oracle rand attempt elapsed fuel).calls =
        k - attempt + 1 := by
  intro fuel
  induction fuel with
  | zero => intro attempt elapsed hinv hak hkm _; omega
  | succ n ih =>
    intro attempt elapsed hinv hak hkm hretry
    by_cases hek : attempt = k
    · subst hek
      simp [fetchWithRetryV1Go, hks, hnr]
    · have hlt : attempt < k := by omega
      have hra := hretry attempt (le_refl _) hlt
      have hnm : ¬ attempt = cfg.maxAttempts := by omega
      obtain ⟨ih1, ih2⟩ := ih (attempt + 1)
        (elapsed + (oracle attempt).1 +
          (jitterAmount (delayV1 cfg.baseDelayMs cfg.maxDelayMs attempt) (rand attempt) : Int))
        (by omega) (by omega) hkm (fun j hj1 hj2 => hretry j (by omega) hj2)
      cases hres : (oracle attempt).2 with
      | status s2 =>
        have hr2 : retryableStatusV1 s2 = true := by
          simpa [retryableAt, hres] using hra
        constructor
        · simp only [fetchWithRetryV1Go, hres, hr2, if_true, if_neg hnm]
          simpa using ih1
        · simp only [fetchWithRetryV1Go, hres, hr2, if_true, if_neg hnm]
          rw [show (fetchWithRetryV1Go cfg budget oracle rand (attempt + 1)
            (elapsed + (oracle attempt).1 +
              (jitterAmount (delayV1 cfg.baseDelayMs cfg.maxDelayMs attempt)
                (rand attempt) : Int)) n).calls = k - (attempt + 1) + 1 from ih2]
          omega
      | thrown =>
        constructor
        · simp only [fetchWithRetryV1Go, hres, if_neg hnm]
          simpa using ih1
        · simp only [fetchWithRetryV1Go, hres, if_neg hnm]
          rw [show (fetchWithRetryV1Go cfg budget oracle rand (attempt + 1)
            (elapsed + (oracle attempt).1 +
              (jitterAmount (delayV1 cfg.baseDelayMs cfg.maxDelayMs attempt)
                (rand attempt) : Int)) n).calls = k - (attempt + 1) + 1 from ih2]
          omega

/-- C3: fetchWithRetry performs at most maxAttempts fetch invocations;
and if every attempt before k is retryable (retryable status or thrown)
while attempt k returns a 2xx response, the loop returns that response
at attempt k with exactly k invocations and no further attempts. -/
theorem C3_theorem (cfg : RetryCfgV1) (budget : Int) (oracle : Nat → Int × FetchRes)
    (rand : Nat → Nat) :
    (fetchWithRetryV1 cfg budget oracle rand).calls ≤ cfg.maxAttempts ∧
    (∀ k s, 1 ≤ k → k ≤ cfg.maxAttempts →
      (∀ j, 1 ≤ j → j < k → retryableAt (oracle j) = true) →
      (oracle k).2 = FetchRes.status s → 200 ≤ s → s ≤ 299 →
      (fetchWithRetryV1 cfg budget oracle rand).result = some (s, k) ∧
      (fetchWithRetryV1 cfg budget oracle rand).calls = k) := by
  constructor
  · exact fetchWithRetryV1Go_calls_le cfg budget oracle rand cfg.maxAttempts 1 0
  · intro k s hk1 hkm hretry hks h200 h299
    obtain ⟨h1, h2⟩ := fetchWithRetryV1Go_first_return cfg budget oracle rand k s hks
      (retryableStatusV1_2xx h200 h299) cfg.maxAttempts 1 0 (by omega) hk1 hkm hretry
    exact ⟨h1, by rw [show fetchWithRetryV1 cfg budget oracle rand =
      fetchWithRetryV1Go cfg budget oracle rand 1 0 cfg.maxAttempts from rfl, h2]; omega⟩

/-- C3 witness: scenario C. Two 429 responses and then a 200 yield the
success response with attemptsUsed 3 under maxAttempts 4. -/
theorem C3_witness :
    (fetchWithRetryV1 ⟨4, 1200, 12000⟩ 0
      (fun j => if j = 1 then (0, FetchRes.status 429)
        else if j = 2 then (0, FetchRes.status 429) else (0, FetchRes.status 200))
      (fun _ => 0)).result = some (200, 3) ∧
    (fetchWithRetryV1 ⟨4, 1200, 12000⟩ 0
      (fun j => if j = 1 then (0, FetchRes.status 429)
        else if j = 2 then (0, FetchRes.status 429) else (0, FetchRes.status 200))
      (fun _ => 0)).calls = 3 := by
  refine (C3_theorem ⟨4, 1200, 12000⟩ 0
    (fun j => if j = 1 then (0, FetchRes.status 429)
      else if j = 2 then (0, FetchRes.status 429) else (0, FetchRes.status 200))
    (fun _ => 0)).2 3 200 (by decide) (by decide) ?_ (by decide) (by decide) (by decide)
  intro j hj1 hj2
  have : j = 1 ∨ j = 2 := by omega
  rcases this with rfl | rfl <;> decide

/-! ### The /book HTTP handlers

handleBook embeds the first index.js variant (lines 105-525): api-key
check, the RUNNING in-memory lock, configuration checks, rule building
with environment defaults, the validation block, one fetchWithRetry
call, and the response statuses of every path; the try/finally always
clears RUNNING on the paths that set it. handleBook8 embeds the
part_008 handler (lines 287-347), which responds 200 on every path past
its key check. -/

/-- The effective booking rule, body fields over deployment defaults. -/
structure BookingRule where
  targetDay : String
  eveningStart : String
  eveningEnd : String
  timeZone : String
  activityUrl : String
  dryRun : Bool
  pollSeconds : Int
  pollIntervalMs : Int
deriving DecidableEq

/-- Deployment configuration: credentials and rule defaults. A none
models an unset or empty (falsy) environment variable. -/
structure EnvCfg where
  apiKey : Option String
  browserlessBase : Option String
  browserlessToken : Option String
  amiliaEmail : Option String
  amiliaPassword : Option String
  defTargetDay : String
  defEveningStart : String
  defEveningEnd : String
  defTimeZone : String
  defActivityUrl : String
  defDryRun : Bool
  defPollSeconds : Int
  defPollIntervalMs : Int
deriving DecidableEq

/-- An inbound /book request: the x-api-key header and the optional body
fields (none models an absent or non-coercible field). -/
structure BookRequest where
  apiKeyHeader : Option String
  targetDay : Option String
  eveningStart : Option String
  eveningEnd : Option String
  timeZone : Option String
  activityUrl : Option String
  dryRun : Option Bool
  pollSeconds : Option Int
  pollIntervalMs : Option Int
deriving DecidableEq

/-- requireApiKey of index.js lines 17-24: the header must be present
and equal the configured key. -/
def requireApiKeyOk (env : EnvCfg) (provided : Option String) : Bool :=
  match provided, env.apiKey with
  | some p, some k => p == k
  | _, _ => false

/-- Rule building with defaults (index.js lines 147-182). -/
def buildRule (env : EnvCfg) (req : BookRequest) : BookingRule :=
  { targetDay := req.targetDay.getD env.defTargetDay
    eveningStart := req.eveningStart.getD env.defEveningStart
    eveningEnd := req.eveningEnd.getD env.defEveningEnd
    timeZone := req.timeZone.getD env.defTimeZone
    activityUrl := req.activityUrl.getD env.defActivityUrl
    dryRun := req.dryRun.getD env.defDryRun
    pollSeconds := req.pollSeconds.getD env.defPollSeconds
    pollIntervalMs := req.pollIntervalMs.getD env.defPollIntervalMs }

/-- The validation block of /book (index.js lines 184-213): day name,
both HH:MM fields and the calendar URL; nothing else is checked. -/
def validateRule (r : BookingRule) : Bool :=
  VALID_DAYS.contains r.targetDay && isValidHHMM r.eveningStart &&
    isValidHHMM r.eveningEnd && isValidCalendarUrl r.activityUrl

/-- Remote outcome at the handler level: the fetchWithRetry call
returned a response (HTTP ok or not) or threw (abort or other). -/
inductive RemoteCall where
  | respOk
  | respErr
  | thrownAbort
  | thrownOther
deriving DecidableEq

/-- Observable outcome of one /book request: the HTTP response status,
the number of remote calls made, and the RUNNING flag afterwards. -/
structure HandlerOut where
  status : Nat
  fetchCalls : Nat
  runningAfter : Bool
deriving DecidableEq

/-- The index.js /book handler (first variant, lines 105-525). -/
def handleBook (running : Bool) (env : EnvCfg) (req : BookRequest)
    (remote : RemoteCall) : HandlerOut :=
  if !requireApiKeyOk env req.apiKeyHeader then ⟨401, 0, running⟩
  else if running then ⟨409, 0, running⟩
  else
    if env.browserlessBase.isNone || env.browserlessToken.isNone then ⟨500, 0, false⟩
    else if env.amiliaEmail.isNone || env.amiliaPassword.isNone then ⟨500, 0, false⟩
    else
      let rule := buildRule env req
      if !(VALID_DAYS.contains rule.targetDay) then ⟨400, 0, false⟩
      else if !(isValidHHMM rule.eveningStart && isValidHHMM rule.eveningEnd) then
        ⟨400, 0, false⟩
      else if !(isValidCalendarUrl rule.activityUrl) then ⟨400, 0, false⟩
      else
        match remote with
        | .respOk => ⟨200, 1, false⟩
        | .respErr => ⟨502, 1, false⟩
        | .thrownAbort => ⟨504, 1, false⟩
        | .thrownOther => ⟨504, 1, false⟩

/-- requireApiKey of part_008 (lines 110-125): 500 when API_KEY is not
configured; otherwise the x-api-key header or a Bearer token must equal
it; none means the request passes. -/
def requireApiKey8 (envKey : Option String) (headerKey bearer : Option String) :
    Option Nat :=
  match envKey with
  | none => some 500
  | some k =>
    match headerKey.orElse (fun _ => bearer) with
    | none => some 401
    | some p => if p == k then none else some 401

/-- Remote behaviour seen by the part_008 /book handler. -/
inductive RemoteO8 where
  | value (ok : Bool)
  | thrown
  | handlerTimeout
deriving DecidableEq

/-- The part_008 /book handler (lines 287-347): past the key check it
responds 200 on every path, the outcome living in the JSON body. -/
def handleBook8 (envKey : Option String) (headerKey bearer : Option String)
    (remote : RemoteO8) : Nat :=
  match requireApiKey8 envKey headerKey bearer with
  | some s => s
  | none =>
    match remote with
    | .value _ => 200
    | .thrown => 200
    | .handlerTimeout => 200

/-- A fully configured deployment used by concrete runs. -/
def cexEnv : EnvCfg :=
  ⟨some "k", some "b", some "t", some "e", some "p", "Saturday", "13:00", "20:00",
    "America/Toronto", "https://x/shop/activities/1", true, 120, 5000⟩

/-- A correctly keyed request whose targetDay is invalid. -/
def cexReq : BookRequest :=
  ⟨some "k", some "Funday", none, none, none, none, none, none, none⟩

/-- C2: the claim that every inbound booking request is answered with
HTTP 200 is false of the index.js handler: a validation failure (an
invalid targetDay) is answered with 400. -/
theorem C2_counterexample :
    (handleBook false cexEnv cexReq RemoteCall.respOk).status = 400 ∧ (400 : Nat) ≠ 200 := by
  constructor
  · decide
  · decide

/-- C2 (amended): only the part_008 handler always answers 200: every
request that passes its api-key check is answered with HTTP 200
regardless of the remote outcome, failures living in the JSON body. The
index.js handlers answer 401, 409, 400, 500, 502, 503 or 504 on their
error paths. -/
theorem C2_theorem (envKey headerKey bearer : Option String) (remote : RemoteO8)
    (hpass : requireApiKey8 envKey headerKey bearer = none) :
    handleBook8 envKey headerKey bearer remote = 200 := by
  unfold handleBook8
  rw [hpass]
  cases remote <;> rfl

/-- C2 witness: a correctly keyed part_008 request whose remote call
threw is still answered 200. -/
theorem C2_witness :
    handleBook8 (some "k") (some "k") none RemoteO8.thrown = 200 :=
  C2_theorem (some "k") (some "k") none RemoteO8.thrown (by decide)

/-- C9: the RUNNING flag is clear after any /book request that found it
clear, whatever path the handler took (auth failure, configuration
error, validation error, remote failure, timeout or success); and while
a run is in progress a further /book request makes no remote call and
leaves the flag held by the running request. -/
theorem C9_theorem :
    (∀ (env : EnvCfg) (req : BookRequest) (remote : RemoteCall),
      (handleBook false env req remote).runningAfter = false) ∧
    (∀ (env : EnvCfg) (req : BookRequest) (remote : RemoteCall),
      (handleBook true env req remote).fetchCalls = 0 ∧
      (handleBook true env req remote).runningAfter = true) := by
  constructor
  · intro env req remote
    simp only [handleBook]
    split_ifs <;> (try cases remote) <;> rfl
  · intro env req remote
    simp only [handleBook]
    split_ifs <;> (try cases remote) <;> simp_all

/-- C10: a /book request whose api key is absent or wrong is answered
401 Unauthorized, makes no remote call and leaves the RUNNING flag
unchanged; the part_008 middleware likewise answers 401 to a wrong key
(header or Bearer). -/
theorem C10_theorem :
    (∀ (running : Bool) (env : EnvCfg) (req : BookRequest) (remote : RemoteCall),
      requireApiKeyOk env req.apiKeyHeader = false →
      handleBook running env req remote = ⟨401, 0, running⟩) ∧
    (∀ (k p : String) (bearer : Option String) (remote : RemoteO8), p ≠ k →
      handleBook8 (some k) (some p) bearer remote = 401) := by
  constructor
  · intro running env req remote h
    unfold handleBook
    rw [h]
    rfl
  · intro k p bearer remote h
    have hb : (p == k) = false := beq_eq_false_iff_ne.mpr h
    simp [handleBook8, requireApiKey8, Option.orElse, hb]

/-- C10 witness: a wrongly keyed request against the configured
deployment is answered 401 with no remote call and an unchanged flag,
in both handler variants. -/
theorem C10_witness :
    handleBook true cexEnv
      ⟨some "wrong", none, none, none, none, none, none, none, none⟩
      RemoteCall.respOk = ⟨401, 0, true⟩ ∧
    handleBook8 (some "k") (some "wrong") none RemoteO8.thrown = 401 :=
  ⟨C10_theorem.1 true cexEnv ⟨some "wrong", none, none, none, none, none, none, none, none⟩
      RemoteCall.respOk (by decide),
    C10_theorem.2 "k" "wrong" none RemoteO8.thrown (by decide)⟩

/-- C7: the claim that accepted rules satisfy windowStart ≤ windowEnd
and pollIntervalMs constraints is false: this rule passes validation
although its window is reversed (20:00 to 13:00) and its
pollIntervalMs is 0. -/
theorem C7_counterexample :
    validateRule ⟨"Saturday", "20:00", "13:00", "America/Toronto",
      "https://x/shop/activities/1", true, 1, 0⟩ = true ∧
    hhmmToMinutes "20:00" = some 1200 ∧ hhmmToMinutes "13:00" = some 780 ∧
    ¬ (1200 : Nat) ≤ 780 ∧
    ¬ (0 : Int) > 0 := by
  refine ⟨by decide, by decide, by decide, by decide, by decide⟩

/-- C7 (amended): a rule accepted by the /book validation has a valid
day name, eveningStart and eveningEnd parsing as HH:MM minute-of-day
values in 0..1439, and an activityUrl containing one of the two known
resource-path shapes; the validation enforces nothing about
windowStart ≤ windowEnd, pollIntervalMs > 0, or
pollIntervalMs ≤ pollBudgetSeconds * 1000. -/
theorem C7_theorem (r : BookingRule) (hv : validateRule r = true) :
    (∃ a, hhmmToMinutes r.eveningStart = some a ∧ a ≤ 1439) ∧
    (∃ b, hhmmToMinutes r.eveningEnd = some b ∧ b ≤ 1439) ∧
    (scanSub "/shop/activities/".data r.activityUrl.data = true ∨
      scanSub "/shop/programs/calendar/".data r.activityUrl.data = true) ∧
    VALID_DAYS.contains r.targetDay = true := by
  unfold validateRule at hv
  simp only [Bool.and_eq_true] at hv
  obtain ⟨⟨⟨hday, hstart⟩, hend⟩, hurl⟩ := hv
  refine ⟨?_, ?_, ?_, hday⟩
  · obtain ⟨a, ha⟩ := isValidHHMM_parses hstart
    exact ⟨a, ha, hhmmToMinutes_le_1439 ha⟩
  · obtain ⟨b, hb⟩ := isValidHHMM_parses hend
    exact ⟨b, hb, hhmmToMinutes_le_1439 hb⟩
  · unfold isValidCalendarUrl at hurl
    exact (Bool.or_eq_true _ _).mp hurl

/-- C7 witness: a well-formed accepted rule, through the theorem. -/
theorem C7_witness :
    (∃ a, hhmmToMinutes (BookingRule.eveningStart ⟨"Saturday", "13:00", "20:00",
      "America/Toronto", "https://x/shop/activities/1", true, 120, 5000⟩) =
      some a ∧ a ≤ 1439) ∧
    (∃ b, hhmmToMinutes (BookingRule.eveningEnd ⟨"Saturday", "13:00", "20:00",
      "America/Toronto", "https://x/shop/activities/1", true, 120, 5000⟩) =
      some b ∧ b ≤ 1439) ∧
    (scanSub "/shop/activities/".data (BookingRule.activityUrl ⟨"Saturday", "13:00",
      "20:00", "America/Toronto", "https://x/shop/activities/1", true, 120, 5000⟩).data =
      true ∨
      scanSub "/shop/programs/calendar/".data (BookingRule.activityUrl ⟨"Saturday",
        "13:00", "20:00", "America/Toronto", "https://x/shop/activities/1", true, 120,
        5000⟩).data = true) ∧
    VALID_DAYS.contains (BookingRule.targetDay ⟨"Saturday", "13:00", "20:00",
      "America/Toronto", "https://x/shop/activities/1", true, 120, 5000⟩) = true :=
  C7_theorem ⟨"Saturday", "13:00", "20:00", "America/Toronto",
    "https://x/shop/activities/1", true, 120, 5000⟩ (by decide)

end Amilia
